import Mathlib

/-!
# Verification of `tools/createBinaryArchives.py`

A shallow embedding of the packaging script that builds platform-specific
binary archives of LTeX LS. Script texts and file contents are modelled as
`List Char`; the Python `re` searches are modelled by explicit leftmost-match
scans with the exact semantics of the patterns used by the script
(`.` never matches a newline; with `re.MULTILINE`, `^` matches at the start
of the text or right after a newline and `$` right before a newline or at the
end of the text); Python `assert` failures and uncaught exceptions are
modelled by `Option.none`.
-/

set_option autoImplicit false

namespace CreateBinaryArchives

/-- Module-level constant `javaVersion` of the script. -/
def javaVersion : String := "11.0.15+10"

/-- The string `relativeJavaDirPathString` (line 111), computed in
`downloadJava` and returned to `createBinaryArchive`. -/
def relativeJavaDirPathString : String := "jdk-" ++ javaVersion

/-! ## Version resolver (`getLtexLsVersion`)

The script runs `re.search(r"<version>(.*?)</version>", contents)` and
asserts the match exists, returning group 1.  `re.search` returns the
leftmost position at which the whole pattern matches; the lazy group `(.*?)`
then takes the shortest run of non-newline characters followed by the literal
closing tag. -/

def versionOpenTag : List Char := "<version>".data

def versionCloseTag : List Char := "</version>".data

/-- The lazy group `(.*?)</version>`: the shortest run of non-newline
characters that is followed by the closing tag; `none` when no such run
exists (a newline or the end of the text is reached first). -/
def versionGroupAt : List Char → Option (List Char)
  | [] => none
  | c :: cs =>
    if versionCloseTag.isPrefixOf (c :: cs) then some []
    else if c = '\n' then none
    else (versionGroupAt cs).map (fun g => c :: g)

/-- The whole pattern `<version>(.*?)</version>` matched at the head of `s`,
returning group 1 on success. -/
def versionMatchHere (s : List Char) : Option (List Char) :=
  if versionOpenTag.isPrefixOf s then versionGroupAt (s.drop versionOpenTag.length)
  else none

/-- The pattern matched at offset `i` into `s`. -/
def versionMatchAt (s : List Char) (i : Nat) : Option (List Char) :=
  versionMatchHere (s.drop i)

/-- Model of `re.search`: try each offset from the left, return group 1 of the first
offset at which the whole pattern matches. -/
def reSearchVersion : List Char → Option (List Char)
  | [] => none
  | c :: cs =>
    match versionMatchHere (c :: cs) with
    | some g => some g
    | none => reSearchVersion cs

/-- The function `getLtexLsVersion` applied to the contents of `pom.xml`: the assertion
failure on a missing match is `none`. -/
def getLtexLsVersion (pomContents : List Char) : Option (List Char) :=
  reSearchVersion pomContents

/-- A descriptor with two version tags; the script only ever reads the first. -/
def pomExample : List Char :=
  "<project>\n  <version>1.2.3</version>\n  <version>4.5.6</version>\n</project>\n".data

/-- A descriptor with no version tag at all. -/
def pomNoVersionExample : List Char :=
  "<project>\n  <artifactId>ltex-ls</artifactId>\n</project>\n".data

/-! ## Script patcher (`createBinaryArchive`, lines 43-67)

The script compiles `^set REPO=.*$` (Windows) or `^BASEDIR=.*$` (otherwise)
with `re.MULTILINE`, searches each startup script's text, asserts a match,
and splices an insert string into the text at `regexMatch.end()`.  With
these patterns a match starts at a position that is the start of the text or
preceded by a newline and where the literal anchor text occurs, and its end
is the position of the next newline (or the end of the text): `.` matches
any character but a newline and the greedy `.*$` extends to the line end. -/

/-- The literal anchor text of the platform's pattern
`binScriptJavaHomeSearchPattern` (the `.*$` tail is handled by `lineEndFrom`). -/
def binScriptJavaHomeSearchPattern (platform : String) : List Char :=
  if platform = "windows" then "set REPO=".data else "BASEDIR=".data

/-- The `binScriptJavaHomeInsertString` value of the script (lines 56-59). -/
def binScriptJavaHomeInsertString (platform : String) (relativeJavaDirPath : String) : String :=
  if platform = "windows" then
    "\r\nif not defined JAVA_HOME set JAVA_HOME=\"%BASEDIR%\\" ++ relativeJavaDirPath ++ "\""
  else
    "\n[ -z \"$JAVA_HOME\" ] && JAVA_HOME=\"$BASEDIR\"/" ++ relativeJavaDirPath

/-- With `re.MULTILINE`, `^` matches at offset `i` iff `i = 0` or the
previous character is a newline. -/
def isLineStart (s : List Char) (i : Nat) : Bool :=
  i == 0 || s[i-1]? == some '\n'

/-- The anchor pattern matches at offset `i` of `s`. -/
def anchorMatchB (pat s : List Char) (i : Nat) : Bool :=
  isLineStart s i && pat.isPrefixOf (s.drop i)

/-- The value `regexMatch.end()` for a match starting at offset `i`: the offset of the
first newline at or after `i`, or the length of the text. -/
def lineEndFrom (s : List Char) (i : Nat) : Nat :=
  i + ((s.drop i).takeWhile (fun c => c != '\n')).length

/-- Leftmost-match scan: the first offset in `[start, start + fuel)` at
which `p` holds. -/
def findFirstIdx (p : Nat → Bool) : Nat → Nat → Option Nat
  | _, 0 => none
  | start, fuel + 1 => if p start then some start else findFirstIdx p (start + 1) fuel

/-- The `re.search` start offset: `re.search` tries every offset of the text
from the left (offsets `0 … s.length`). -/
def reSearchAnchorStart (pat s : List Char) : Option Nat :=
  findFirstIdx (anchorMatchB pat s) 0 (s.length + 1)

/-- The patching loop body (lines 62-67): read the script text, search the
anchor pattern, assert a match, splice the insert string at the match end.
An absent match is the assertion failure, `none`. -/
def patchBinScript (pat ins s : List Char) : Option (List Char) :=
  match reSearchAnchorStart pat s with
  | none => none
  | some i => some (s.take (lineEndFrom s i) ++ ins ++ s.drop (lineEndFrom s i))

/-- The patch as performed by `createBinaryArchive` for a given platform:
the insert string references `relativeJavaDirPath` as returned by
`downloadJava`. -/
def patchStartupScript (platform : String) (s : List Char) : Option (List Char) :=
  patchBinScript (binScriptJavaHomeSearchPattern platform)
    (binScriptJavaHomeInsertString platform relativeJavaDirPathString).data s

/-- A Unix `ltex-ls` startup script containing the `BASEDIR=` anchor. -/
def unixScriptExample : List Char :=
  "#!/bin/sh\nBASEDIR=`dirname \"$PRG\"`/..\nexec java\n".data

/-- A script text without any anchor line. -/
def noAnchorScriptExample : List Char :=
  "#!/bin/sh\nexec java\nBASE=here\n".data

/-! ## Config patcher (`createBinaryArchive`, lines 69-76)

The script loads `.lsp-cli.json` with `json.load`, assigns
`lspCliJson["defaultValues"]["--server-command-line"]`, and dumps the value
back.  JSON values are modelled by `JsonValue`; objects are association
lists in insertion order (Python dicts preserve insertion order, keep no
duplicate keys, replace the value in place on assignment to an existing key
and append on assignment to a fresh one).  A `KeyError`/`TypeError` on the
nested assignment — `defaultValues` absent or not an object — is `none`. -/

inductive JsonValue where
  | str : String → JsonValue
  | num : Int → JsonValue
  | bool : Bool → JsonValue
  | null : JsonValue
  | arr : List JsonValue → JsonValue
  | obj : List (String × JsonValue) → JsonValue

/-- First-occurrence lookup in an object's fields (`d[k]`). -/
def lookupKey (k : String) : List (String × JsonValue) → Option JsonValue
  | [] => none
  | (k', v') :: rest => if k' = k then some v' else lookupKey k rest

/-- Assignment `d[k] = v` on an object's fields: replace the first binding
of `k` in place, or append a new binding. -/
def setKey (k : String) (v : JsonValue) : List (String × JsonValue) → List (String × JsonValue)
  | [] => [(k, v)]
  | (k', v') :: rest => if k' = k then (k, v) :: rest else (k', v') :: setKey k v rest

/-- The value assigned to `--server-command-line` (lines 72-73). -/
def serverCommandLineValue (platform : String) : String :=
  if platform = "windows" then "ltex-ls.bat" else "./ltex-ls"

/-- Lines 71-76: the parsed config after
`lspCliJson["defaultValues"]["--server-command-line"] = ...`. -/
def patchLspCliJson (platform : String) : JsonValue → Option JsonValue
  | .obj fields =>
    match lookupKey "defaultValues" fields with
    | some (.obj dv) =>
        some (.obj (setKey "defaultValues"
          (.obj (setKey "--server-command-line"
            (.str (serverCommandLineValue platform)) dv)) fields))
    | _ => none
  | _ => none

/-- Reading a value through a path of object keys. -/
def getPath : JsonValue → List String → Option JsonValue
  | v, [] => some v
  | .obj fields, k :: ks =>
    match lookupKey k fields with
    | some v => getPath v ks
    | none => none
  | _, _ :: _ => none

/-- The concrete `.lsp-cli.json` shape shipped with the distribution. -/
def lspCliJsonExample : JsonValue :=
  .obj [("programName", .str "ltex-cli"),
        ("defaultValues", .obj [("--server-command-line", .str "ltex-ls"),
                                ("--hide-commands", .bool true)]),
        ("helpMessage", .str "LTeX CLI")]

/-! ## Deleting the non-matching launch scripts (lines 43-53)

On a Windows target the script calls `.unlink()` on `bin/ltex-ls` and
`bin/ltex-cli`; on every other target on `bin/ltex-ls.bat` and
`bin/ltex-cli.bat`.  The `bin` directory is modelled as the list of its
entry names (a real directory listing has no duplicate names, hence the
`Nodup` hypotheses); `Path.unlink` raises `FileNotFoundError` when the
entry is absent, which is `none`. -/

/-- Model of `Path.unlink()`: remove exactly one directory entry, failing when it is
absent. -/
def unlinkFile (name : String) (files : List String) : Option (List String) :=
  if name ∈ files then some (files.erase name) else none

/-- The pair of launch scripts deleted for a target platform. -/
def deletedScripts (platform : String) : String × String :=
  if platform = "windows" then ("ltex-ls", "ltex-cli")
  else ("ltex-ls.bat", "ltex-cli.bat")

/-- Lines 43-53: the `bin` directory contents after the two `unlink` calls
of the platform's branch. -/
def deleteNonMatchingScripts (platform : String) (files : List String) :
    Option (List String) :=
  if platform = "windows" then
    (unlinkFile "ltex-ls" files).bind (unlinkFile "ltex-cli")
  else
    (unlinkFile "ltex-ls.bat" files).bind (unlinkFile "ltex-cli.bat")

/-- The `bin` directory of an extracted distribution. -/
def binDirExample : List String :=
  ["ltex-ls", "ltex-ls.bat", "ltex-cli", "ltex-cli.bat", ".lsp-cli.json"]

/-! ## Archiver (lines 78-85) and driver (`main`, lines 147-155)

`createBinaryArchive` ends with one call to `shutil.make_archive` on the
base path `targetDirPath / f"ltex-ls-\x7bltexLsVersion\x7d-\x7bplatform\x7d-\x7barch\x7d"`,
with format `"zip"` for Windows and `"gztar"` otherwise; `make_archive`
appends the extension registered for the format.  `main` runs the pipeline
for six fixed (platform, architecture) pairs. -/

/-- The fixed output directory (`targetDirPath`, the repository's `target`
directory, identical for every target). -/
def targetDirName : String := "target"

/-- One archive written by `shutil.make_archive`. -/
structure Archive where
  dir : String
  baseName : String
  format : String
deriving DecidableEq

/-- Line 78. -/
def ltexLsBinaryArchiveFormat (platform : String) : String :=
  if platform = "windows" then "zip" else "gztar"

/-- Line 79 (used by the script only for the log message). -/
def ltexLsBinaryArchiveExtension (platform : String) : String :=
  if platform = "windows" then ".zip" else ".tar.gz"

/-- Lines 80-81. -/
def ltexLsBinaryArchiveBaseName (version platform arch : String) : String :=
  "ltex-ls-" ++ version ++ "-" ++ platform ++ "-" ++ arch

/-- The extension `shutil.make_archive` appends for each registered archive
format (Python stdlib behaviour). -/
def makeArchiveExtension (format : String) : Option String :=
  if format = "zip" then some ".zip"
  else if format = "tar" then some ".tar"
  else if format = "gztar" then some ".tar.gz"
  else if format = "bztar" then some ".tar.bz2"
  else if format = "xztar" then some ".tar.xz"
  else none

/-- Lines 83-85: the archives written by one `createBinaryArchive` call —
exactly the single `make_archive` output. -/
def createBinaryArchiveOutputs (version platform arch : String) : List Archive :=
  [⟨targetDirName, ltexLsBinaryArchiveBaseName version platform arch,
    ltexLsBinaryArchiveFormat platform⟩]

/-- The six (platform, architecture) pairs of `main`, in call order. -/
def targets : List (String × String) :=
  [("linux", "x64"), ("linux", "aarch64"),
   ("mac", "x64"), ("mac", "aarch64"),
   ("windows", "x64"), ("windows", "x86-32")]

/-- All archives written by one `main` run. -/
def mainOutputs (version : String) : List Archive :=
  (targets.map fun t => createBinaryArchiveOutputs version t.1 t.2).flatten

/-! ## Version extraction count (`createBinaryArchive` line 27, `main`)

`getLtexLsVersion()` is called at line 27, inside `createBinaryArchive` —
so one extraction happens per target iteration, not one per run.  The run
is abstracted as the list of version-extraction and archive-creation
events it performs, in order. -/

inductive Event where
  | versionExtraction : Event
  | archiveCreation : String → String → Event
deriving DecidableEq

/-- The events of one `createBinaryArchive` call: line 27 reads the version
from `pom.xml`, lines 83-85 write the archive. -/
def createBinaryArchiveEvents (platform arch : String) : List Event :=
  [Event.versionExtraction, Event.archiveCreation platform arch]

/-- The events of one `main` run over the six targets. -/
def mainEvents : List Event :=
  (targets.map fun t => createBinaryArchiveEvents t.1 t.2).flatten

/-- The version value each of the six iterations works with, each obtained
by its own call of `getLtexLsVersion` on the same `pom.xml` contents. -/
def mainVersions (pomContents : List Char) : List (Option (List Char)) :=
  targets.map fun _ => getLtexLsVersion pomContents

/-- The events of a driver run over an arbitrary list of targets: the six
`createBinaryArchive` calls are plain sequential calls (lines 147-155), so
the run's event list is the concatenation of the single-call event lists —
nothing mutable is carried from one call to the next. -/
def runEvents (ts : List (String × String)) : List Event :=
  (ts.map fun t => createBinaryArchiveEvents t.1 t.2).flatten

/-- The archives of a driver run over an arbitrary list of targets. -/
def runOutputs (version : String) (ts : List (String × String)) : List Archive :=
  (ts.map fun t => createBinaryArchiveOutputs version t.1 t.2).flatten

/-- The version values resolved by a driver run over an arbitrary list of
targets: one extraction per call, each from the same immutable descriptor
contents. -/
def runVersions (pomContents : List Char) (ts : List (String × String)) :
    List (Option (List Char)) :=
  ts.map fun _ => getLtexLsVersion pomContents

/-! ## Runtime provisioner post-link behaviour (`downloadJava`, lines 126-135)

`subprocess.run(["jlink", ...])` is invoked without any inspection of the
returned `CompletedProcess` (no `check=True`, no `returncode` test); the
only validation is `assert javaTargetDirPath.is_dir()`.  The external tool
run is modelled by its observable outcome: the exit code and whether the
output directory exists afterwards. -/

/-- The `javaModules` list (lines 121-124). -/
def javaModules : List String := ["java.se", "java.base"]

/-- The `jlink` argument vector of lines 127-129. -/
def jlinkCommand (jmodsDirPath javaTargetDirPath : String) : List String :=
  ["jlink", "--module-path", jmodsDirPath, "--add-modules",
   String.intercalate "," javaModules, "--strip-debug", "--no-man-pages",
   "--no-header-files", "--compress=2", "--output", javaTargetDirPath]

/-- The outcome of the external `jlink` invocation. -/
structure JlinkOutcome where
  exitCode : Int
  outputDirExists : Bool

/-- Lines 127-135 after the `subprocess.run` call: assert the output
directory exists, then continue (remove the JDK tree and return the
relative runtime directory name); the assertion failure is `none`. -/
def downloadJavaAfterLink (o : JlinkOutcome) : Option String :=
  if o.outputDirExists then some relativeJavaDirPathString else none

/-! ## Theorems -/

theorem versionMatchAt_zero (s : List Char) : versionMatchAt s 0 = versionMatchHere s := by
  simp [versionMatchAt]

theorem versionMatchAt_succ (c : Char) (cs : List Char) (i : Nat) :
    versionMatchAt (c :: cs) (i + 1) = versionMatchAt cs i := by
  simp [versionMatchAt]

theorem versionMatchHere_nil : versionMatchHere [] = none := by
  simp [versionMatchHere, versionOpenTag, List.isPrefixOf]

/-- The scan `reSearchVersion` returns the match at the least offset at which the
pattern matches, when one exists. -/
theorem reSearchVersion_eq_first (s : List Char)
    (h : ∃ i, (versionMatchAt s i).isSome) :
    ∃ i, (∀ j, j < i → versionMatchAt s j = none) ∧
      (versionMatchAt s i).isSome ∧ reSearchVersion s = versionMatchAt s i := by
  induction s with
  | nil =>
    obtain ⟨i, hi⟩ := h
    have : versionMatchAt [] i = none := by
      simp [versionMatchAt, versionMatchHere_nil]
    rw [this] at hi
    simp at hi
  | cons c cs ih =>
    by_cases h0 : (versionMatchHere (c :: cs)).isSome
    · refine ⟨0, fun j hj => absurd hj (Nat.not_lt_zero j), ?_, ?_⟩
      · simpa [versionMatchAt_zero] using h0
      · rw [versionMatchAt_zero]
        obtain ⟨g, hg⟩ := Option.isSome_iff_exists.mp h0
        simp [reSearchVersion, hg]
    · have h0' : versionMatchHere (c :: cs) = none := by
        cases hh : versionMatchHere (c :: cs) with
        | none => rfl
        | some g => rw [hh] at h0; simp at h0
      have htail : ∃ i, (versionMatchAt cs i).isSome := by
        obtain ⟨i, hi⟩ := h
        cases i with
        | zero =>
          rw [versionMatchAt_zero, h0'] at hi
          simp at hi
        | succ i' =>
          exact ⟨i', by rwa [versionMatchAt_succ] at hi⟩
      obtain ⟨i, hmin, hsome, heq⟩ := ih htail
      refine ⟨i + 1, ?_, ?_, ?_⟩
      · intro j hj
        cases j with
        | zero => rw [versionMatchAt_zero]; exact h0'
        | succ j' => rw [versionMatchAt_succ]; exact hmin j' (by omega)
      · rwa [versionMatchAt_succ]
      · rw [versionMatchAt_succ, ← heq]
        simp [reSearchVersion, h0']

/-- C5: for every descriptor content on which the version pattern matches
somewhere, `getLtexLsVersion` returns the group of the leftmost match, i.e.
the first value between `<version>` and `</version>` tags. -/
theorem version_resolver_returns_first_match (s : List Char)
    (h : ∃ i, (versionMatchAt s i).isSome) :
    ∃ i, (∀ j, j < i → versionMatchAt s j = none) ∧
      (versionMatchAt s i).isSome ∧ getLtexLsVersion s = versionMatchAt s i :=
  reSearchVersion_eq_first s h

/-- C5 witness: on a concrete descriptor whose first version tag holds
`1.2.3`, the resolver matches and returns exactly `"1.2.3"`. -/
theorem version_resolver_returns_first_match_witness :
    (∃ i, (∀ j, j < i → versionMatchAt pomExample j = none) ∧
      (versionMatchAt pomExample i).isSome ∧
      getLtexLsVersion pomExample = versionMatchAt pomExample i) ∧
    getLtexLsVersion pomExample = some ("1.2.3".data) :=
  ⟨version_resolver_returns_first_match pomExample ⟨12, by decide⟩, by decide⟩

/-- C8: when the version pattern matches at no offset of the descriptor
content, `getLtexLsVersion` hits its assertion and returns no value. -/
theorem version_resolver_fails_without_tag (s : List Char)
    (h : ∀ i, i ≤ s.length → versionMatchAt s i = none) :
    getLtexLsVersion s = none := by
  induction s with
  | nil => rfl
  | cons c cs ih =>
    have h0 : versionMatchHere (c :: cs) = none := by
      have := h 0 (Nat.zero_le _)
      rwa [versionMatchAt_zero] at this
    have htail : ∀ i, i ≤ cs.length → versionMatchAt cs i = none := by
      intro i hi
      have := h (i + 1) (by simpa using Nat.succ_le_succ hi)
      rwa [versionMatchAt_succ] at this
    show reSearchVersion (c :: cs) = none
    simp [reSearchVersion, h0]
    exact ih htail

/-- C8 witness: a concrete descriptor without a version tag makes the
resolver fail. -/
theorem version_resolver_fails_without_tag_witness :
    getLtexLsVersion pomNoVersionExample = none :=
  version_resolver_fails_without_tag pomNoVersionExample (by decide)

theorem findFirstIdx_eq_some {p : Nat → Bool} {start fuel i : Nat}
    (h : findFirstIdx p start fuel = some i) :
    p i = true ∧ start ≤ i ∧ ∀ j, start ≤ j → j < i → p j = false := by
  induction fuel generalizing start with
  | zero => simp [findFirstIdx] at h
  | succ n ih =>
    rw [findFirstIdx] at h
    by_cases hp : p start
    · rw [if_pos hp] at h
      obtain rfl : start = i := by injection h
      exact ⟨hp, Nat.le_refl _, fun j h1 h2 => absurd (Nat.lt_of_le_of_lt h1 h2) (Nat.lt_irrefl _)⟩
    · rw [if_neg hp] at h
      obtain ⟨h1, h2, h3⟩ := ih h
      refine ⟨h1, Nat.le_trans (Nat.le_succ _) h2, fun j hj1 hj2 => ?_⟩
      rcases Nat.eq_or_lt_of_le hj1 with rfl | hlt
      · exact Bool.eq_false_iff.mpr hp
      · exact h3 j hlt hj2

theorem findFirstIdx_eq_none {p : Nat → Bool} {start fuel : Nat}
    (h : ∀ j, start ≤ j → j < start + fuel → p j = false) :
    findFirstIdx p start fuel = none := by
  induction fuel generalizing start with
  | zero => rfl
  | succ n ih =>
    rw [findFirstIdx]
    rw [h start (Nat.le_refl _) (by omega)]
    simp only [Bool.false_eq_true, if_false]
    exact ih fun j hj1 hj2 => h j (Nat.le_trans (Nat.le_succ _) hj1) (by omega)

theorem findFirstIdx_isSome {p : Nat → Bool} {start fuel i : Nat}
    (h1 : start ≤ i) (h2 : i < start + fuel) (h3 : p i = true) :
    (findFirstIdx p start fuel).isSome := by
  cases hf : findFirstIdx p start fuel with
  | some j => rfl
  | none =>
    revert hf
    induction fuel generalizing start with
    | zero => omega
    | succ n ih =>
      rw [findFirstIdx]
      by_cases hp : p start
      · simp [hp]
      · rw [if_neg hp]
        have : start ≠ i := fun he => hp (he ▸ h3)
        exact ih (by omega) (by omega)

/-- C1: when the anchor pattern occurs in the script text, the patcher
rewrites the text to the original with exactly one insertion — the
conditional-default `JAVA_HOME` line — spliced in at the end of the first
anchor line (everything before that point and everything after it is kept
verbatim), and the inserted text contains the relative runtime directory
name returned by `downloadJava` as a contiguous substring. -/
theorem startup_script_patch_inserts_after_first_anchor (platform : String) (s : List Char)
    (h : ∃ i, i ≤ s.length ∧ anchorMatchB (binScriptJavaHomeSearchPattern platform) s i = true) :
    ∃ i, (∀ j, j < i → anchorMatchB (binScriptJavaHomeSearchPattern platform) s j = false) ∧
      anchorMatchB (binScriptJavaHomeSearchPattern platform) s i = true ∧
      patchStartupScript platform s =
        some (s.take (lineEndFrom s i)
          ++ (binScriptJavaHomeInsertString platform relativeJavaDirPathString).data
          ++ s.drop (lineEndFrom s i)) ∧
      relativeJavaDirPathString.data <:+:
        (binScriptJavaHomeInsertString platform relativeJavaDirPathString).data := by
  obtain ⟨i0, hle, hmatch⟩ := h
  have hsome : (reSearchAnchorStart (binScriptJavaHomeSearchPattern platform) s).isSome :=
    findFirstIdx_isSome (Nat.zero_le _) (by omega) hmatch
  obtain ⟨i, hf⟩ := Option.isSome_iff_exists.mp hsome
  obtain ⟨hp, _, hmin⟩ := findFirstIdx_eq_some hf
  refine ⟨i, fun j hj => hmin j (Nat.zero_le _) hj, hp, ?_, ?_⟩
  · simp [patchStartupScript, patchBinScript, hf]
  · by_cases hw : platform = "windows"
    · rw [hw]
      show relativeJavaDirPathString.data <:+:
        (binScriptJavaHomeInsertString "windows" relativeJavaDirPathString).data
      decide
    · rw [binScriptJavaHomeInsertString, if_neg hw]
      rw [String.data_append]
      exact ⟨"\n[ -z \"$JAVA_HOME\" ] && JAVA_HOME=\"$BASEDIR\"/".data, [], by simp⟩

/-- C1 witness: patching a concrete Unix shell script inserts the
`JAVA_HOME` default right after the `BASEDIR=` line. -/
theorem startup_script_patch_inserts_after_first_anchor_witness :
    ∃ i, (∀ j, j < i →
        anchorMatchB (binScriptJavaHomeSearchPattern "linux") unixScriptExample j = false) ∧
      anchorMatchB (binScriptJavaHomeSearchPattern "linux") unixScriptExample i = true ∧
      patchStartupScript "linux" unixScriptExample =
        some (unixScriptExample.take (lineEndFrom unixScriptExample i)
          ++ (binScriptJavaHomeInsertString "linux" relativeJavaDirPathString).data
          ++ unixScriptExample.drop (lineEndFrom unixScriptExample i)) ∧
      relativeJavaDirPathString.data <:+:
        (binScriptJavaHomeInsertString "linux" relativeJavaDirPathString).data :=
  startup_script_patch_inserts_after_first_anchor "linux" unixScriptExample
    ⟨10, by decide, by decide⟩

/-- C7: when the anchor pattern occurs nowhere in the script text
(`re.search` inspects every offset of the text), the patcher hits its
assertion and produces no output script at all. -/
theorem startup_script_patch_fails_without_anchor (platform : String) (s : List Char)
    (h : ∀ i, i ≤ s.length → anchorMatchB (binScriptJavaHomeSearchPattern platform) s i = false) :
    patchStartupScript platform s = none := by
  have : reSearchAnchorStart (binScriptJavaHomeSearchPattern platform) s = none :=
    findFirstIdx_eq_none fun j _ hj => h j (by omega)
  simp [patchStartupScript, patchBinScript, this]

/-- C7 witness: a concrete anchorless script makes the patch step fail
fatally instead of writing a script back. -/
theorem startup_script_patch_fails_without_anchor_witness :
    patchStartupScript "windows" noAnchorScriptExample = none :=
  startup_script_patch_fails_without_anchor "windows" noAnchorScriptExample (by decide)

theorem lookupKey_setKey_self (k : String) (v : JsonValue)
    (l : List (String × JsonValue)) : lookupKey k (setKey k v l) = some v := by
  induction l with
  | nil => simp [setKey, lookupKey]
  | cons p rest ih =>
    obtain ⟨k', v'⟩ := p
    by_cases hk : k' = k
    · simp [setKey, hk, lookupKey]
    · simp [setKey, hk, lookupKey, ih]

theorem lookupKey_setKey_ne (k k' : String) (v : JsonValue)
    (l : List (String × JsonValue)) (h : k' ≠ k) :
    lookupKey k' (setKey k v l) = lookupKey k' l := by
  have hkk : ¬ k = k' := fun he => h he.symm
  induction l with
  | nil => simp [setKey, lookupKey, hkk]
  | cons p rest ih =>
    obtain ⟨k'', v''⟩ := p
    by_cases hk : k'' = k
    · subst hk
      simp [setKey, lookupKey, hkk]
    · by_cases hk' : k'' = k'
      · subst hk'
        simp [setKey, hk, lookupKey]
      · simp [setKey, hk, lookupKey, hk', ih]

/-- C2: whenever the config patch succeeds, the rewritten config's nested
field `defaultValues["--server-command-line"]` reads back as
`"ltex-ls.bat"` on the `windows` platform and `"./ltex-ls"` on every other
platform. -/
theorem config_patch_sets_server_command_line (platform : String)
    (fields dv : List (String × JsonValue))
    (h : lookupKey "defaultValues" fields = some (.obj dv)) :
    ∃ fields', patchLspCliJson platform (.obj fields) = some (.obj fields') ∧
      getPath (.obj fields') ["defaultValues", "--server-command-line"] =
        some (.str (if platform = "windows" then "ltex-ls.bat" else "./ltex-ls")) := by
  refine ⟨setKey "defaultValues"
    (.obj (setKey "--server-command-line"
      (.str (serverCommandLineValue platform)) dv)) fields, ?_, ?_⟩
  · simp [patchLspCliJson, h]
  · simp [getPath, lookupKey_setKey_self, serverCommandLineValue]

/-- C2 witness: patching the concrete config for both a Windows and a Linux
target yields the two prescribed script names. -/
theorem config_patch_sets_server_command_line_witness :
    (∃ fields', patchLspCliJson "windows" lspCliJsonExample = some (.obj fields') ∧
      getPath (.obj fields') ["defaultValues", "--server-command-line"] =
        some (.str (if "windows" = "windows" then "ltex-ls.bat" else "./ltex-ls"))) ∧
    (∃ fields', patchLspCliJson "linux" lspCliJsonExample = some (.obj fields') ∧
      getPath (.obj fields') ["defaultValues", "--server-command-line"] =
        some (.str (if "linux" = "windows" then "ltex-ls.bat" else "./ltex-ls"))) :=
  ⟨config_patch_sets_server_command_line "windows" _ _ rfl,
   config_patch_sets_server_command_line "linux" _ _ rfl⟩

/-- C10: the config patch touches only the nested field
`defaultValues["--server-command-line"]`: reading the rewritten config along
any key path that neither leads into that field (the path has the target
path as a prefix) nor is an enclosing container of it (the path is a proper
prefix of the target path) gives exactly the original config's value. -/
theorem config_patch_changes_only_target_path (platform : String) (j j' : JsonValue)
    (h : patchLspCliJson platform j = some j') (p : List String)
    (h1 : ¬ p <+: ["defaultValues", "--server-command-line"])
    (h2 : ¬ ["defaultValues", "--server-command-line"] <+: p) :
    getPath j' p = getPath j p := by
  cases j with
  | str s => exact absurd h (by simp [patchLspCliJson])
  | num n => exact absurd h (by simp [patchLspCliJson])
  | bool b => exact absurd h (by simp [patchLspCliJson])
  | null => exact absurd h (by simp [patchLspCliJson])
  | arr a => exact absurd h (by simp [patchLspCliJson])
  | obj fields =>
    rw [patchLspCliJson] at h
    cases hdv : lookupKey "defaultValues" fields with
    | none => rw [hdv] at h; exact absurd h (by simp)
    | some w =>
      rw [hdv] at h
      cases w with
      | str s => exact absurd h (by simp)
      | num n => exact absurd h (by simp)
      | bool b => exact absurd h (by simp)
      | null => exact absurd h (by simp)
      | arr a => exact absurd h (by simp)
      | obj dv =>
        simp only [Option.some.injEq] at h
        subst h
        cases p with
        | nil => exact absurd List.nil_prefix h1
        | cons k ks =>
          by_cases hk : k = "defaultValues"
          · subst hk
            cases ks with
            | nil => exact absurd ⟨["--server-command-line"], rfl⟩ h1
            | cons k2 ks2 =>
              by_cases hk2 : k2 = "--server-command-line"
              · subst hk2; exact absurd ⟨ks2, rfl⟩ h2
              · simp only [getPath, lookupKey_setKey_self, hdv]
                simp only [getPath, lookupKey_setKey_ne _ _ _ _ hk2]
          · simp only [getPath, lookupKey_setKey_ne _ _ _ _ hk]

/-- C10 witness: on the concrete config, the untouched keys `programName`,
`helpMessage` and `defaultValues["--hide-commands"]` read back unchanged
after the patch. -/
theorem config_patch_changes_only_target_path_witness :
    getPath (JsonValue.obj (setKey "defaultValues"
        (.obj (setKey "--server-command-line"
          (.str (serverCommandLineValue "linux"))
          [("--server-command-line", .str "ltex-ls"), ("--hide-commands", .bool true)]))
        [("programName", .str "ltex-cli"),
         ("defaultValues", .obj [("--server-command-line", .str "ltex-ls"),
                                 ("--hide-commands", .bool true)]),
         ("helpMessage", .str "LTeX CLI")]))
      ["defaultValues", "--hide-commands"] =
      getPath lspCliJsonExample ["defaultValues", "--hide-commands"] :=
  config_patch_changes_only_target_path "linux" lspCliJsonExample _ rfl
    ["defaultValues", "--hide-commands"] (by decide) (by decide)

theorem unlink_pair_spec (a b : String) (files files' : List String)
    (hnd : files.Nodup)
    (h : (unlinkFile a files).bind (unlinkFile b) = some files') :
    a ∉ files' ∧ b ∉ files' ∧ ∀ f, f ≠ a → f ≠ b → (f ∈ files' ↔ f ∈ files) := by
  rw [unlinkFile] at h
  by_cases ha : a ∈ files
  · rw [if_pos ha, Option.some_bind, unlinkFile] at h
    by_cases hb : b ∈ files.erase a
    · rw [if_pos hb] at h
      obtain rfl : (files.erase a).erase b = files' := by injection h
      refine ⟨?_, (hnd.erase a).not_mem_erase, ?_⟩
      · intro hmem
        exact hnd.not_mem_erase (List.mem_of_mem_erase hmem)
      · intro f hfa hfb
        rw [List.mem_erase_of_ne hfb, List.mem_erase_of_ne hfa]
    · rw [if_neg hb] at h
      exact absurd h (by simp)
  · rw [if_neg ha, Option.none_bind] at h
    exact absurd h (by simp)

/-- C4: whenever the deletion step succeeds, the two launch scripts not
matching the target platform (`ltex-ls`/`ltex-cli` on Windows,
`ltex-ls.bat`/`ltex-cli.bat` elsewhere) are absent from the resulting `bin`
directory, and every other entry is kept exactly as it was. -/
theorem delete_scripts_removes_non_matching (platform : String)
    (files files' : List String) (hnd : files.Nodup)
    (h : deleteNonMatchingScripts platform files = some files') :
    (deletedScripts platform).1 ∉ files' ∧ (deletedScripts platform).2 ∉ files' ∧
      ∀ f, f ≠ (deletedScripts platform).1 → f ≠ (deletedScripts platform).2 →
        (f ∈ files' ↔ f ∈ files) := by
  rw [deleteNonMatchingScripts] at h
  by_cases hw : platform = "windows"
  · rw [if_pos hw] at h
    rw [deletedScripts, if_pos hw]
    exact unlink_pair_spec _ _ files files' hnd h
  · rw [if_neg hw] at h
    rw [deletedScripts, if_neg hw]
    exact unlink_pair_spec _ _ files files' hnd h

/-- C4 witness: on a concrete `bin` listing and a Windows target, the two
Unix scripts are gone and the rest survives. -/
theorem delete_scripts_removes_non_matching_witness :
    (deletedScripts "windows").1 ∉ ["ltex-ls.bat", "ltex-cli.bat", ".lsp-cli.json"] ∧
    (deletedScripts "windows").2 ∉ ["ltex-ls.bat", "ltex-cli.bat", ".lsp-cli.json"] ∧
    ∀ f, f ≠ (deletedScripts "windows").1 → f ≠ (deletedScripts "windows").2 →
      (f ∈ ["ltex-ls.bat", "ltex-cli.bat", ".lsp-cli.json"] ↔ f ∈ binDirExample) :=
  delete_scripts_removes_non_matching "windows" binDirExample
    ["ltex-ls.bat", "ltex-cli.bat", ".lsp-cli.json"] (by decide) (by decide)

theorem ltexLsBinaryArchiveBaseName_eq_iff (v p1 a1 p2 a2 : String) :
    ltexLsBinaryArchiveBaseName v p1 a1 = ltexLsBinaryArchiveBaseName v p2 a2 ↔
      p1 ++ "-" ++ a1 = p2 ++ "-" ++ a2 := by
  constructor
  · intro h
    have hd := congrArg String.data h
    simp only [ltexLsBinaryArchiveBaseName, String.data_append, List.append_assoc] at hd
    have hd' := List.append_cancel_left (List.append_cancel_left hd)
    apply String.ext
    simp only [String.data_append, List.append_assoc]
    exact List.append_cancel_left hd'
  · intro h
    have hd := congrArg String.data h
    simp only [String.data_append, List.append_assoc] at hd
    apply String.ext
    simp only [ltexLsBinaryArchiveBaseName, String.data_append, List.append_assoc]
    rw [hd]

theorem ltexLsBinaryArchiveBaseName_beq (v p1 a1 p2 a2 : String) :
    (ltexLsBinaryArchiveBaseName v p1 a1 == ltexLsBinaryArchiveBaseName v p2 a2) =
      (p1 ++ "-" ++ a1 == p2 ++ "-" ++ a2) := by
  rw [Bool.eq_iff_iff]
  simp only [beq_iff_eq]
  exact ltexLsBinaryArchiveBaseName_eq_iff v p1 a1 p2 a2

/-- C3: for each of the six targets, the archiver writes exactly one
archive into the fixed output directory, with base name
`ltex-ls-<version>-<platform>-<arch>`, in `zip` format (extension `.zip`)
on Windows and `gztar` format (extension `.tar.gz`) on every other
platform; no other call of the run writes an archive with that base name. -/
theorem archiver_one_archive_per_target (version platform arch : String)
    (h : (platform, arch) ∈ targets) :
    ∃ a : Archive, createBinaryArchiveOutputs version platform arch = [a] ∧
      a.dir = targetDirName ∧
      a.baseName = ltexLsBinaryArchiveBaseName version platform arch ∧
      a.format = (if platform = "windows" then "zip" else "gztar") ∧
      makeArchiveExtension a.format =
        some (if platform = "windows" then ".zip" else ".tar.gz") ∧
      ((mainOutputs version).countP
        (fun x => x.baseName == ltexLsBinaryArchiveBaseName version platform arch)) = 1 := by
  refine ⟨⟨targetDirName, ltexLsBinaryArchiveBaseName version platform arch,
    ltexLsBinaryArchiveFormat platform⟩, rfl, rfl, rfl, rfl, ?_, ?_⟩
  · by_cases hw : platform = "windows" <;>
      simp [ltexLsBinaryArchiveFormat, makeArchiveExtension, hw]
  · simp only [targets, List.mem_cons, List.mem_singleton, Prod.mk.injEq,
      List.not_mem_nil, or_false] at h
    simp only [mainOutputs, targets, createBinaryArchiveOutputs, List.map_cons,
      List.map_nil, List.flatten, List.countP_cons, List.countP_nil,
      List.singleton_append, List.cons_append, List.nil_append]
    rcases h with ⟨rfl, rfl⟩ | ⟨rfl, rfl⟩ | ⟨rfl, rfl⟩ | ⟨rfl, rfl⟩ | ⟨rfl, rfl⟩ | ⟨rfl, rfl⟩ <;>
      simp [List.countP_cons, ltexLsBinaryArchiveBaseName_beq]

/-- C3 witness: the Windows x64 target concretely yields its single `zip`
archive, and the run holds exactly one archive of that name. -/
theorem archiver_one_archive_per_target_witness :
    ∃ a : Archive, createBinaryArchiveOutputs "1.2.3" "windows" "x64" = [a] ∧
      a.dir = targetDirName ∧
      a.baseName = ltexLsBinaryArchiveBaseName "1.2.3" "windows" "x64" ∧
      a.format = (if "windows" = "windows" then "zip" else "gztar") ∧
      makeArchiveExtension a.format =
        some (if "windows" = "windows" then ".zip" else ".tar.gz") ∧
      ((mainOutputs "1.2.3").countP
        (fun x => x.baseName == ltexLsBinaryArchiveBaseName "1.2.3" "windows" "x64")) = 1 :=
  archiver_one_archive_per_target "1.2.3" "windows" "x64" (by decide)

/-- C6 counterexample: in one run of the driver the version string is
extracted six times — once per target iteration, inside
`createBinaryArchive` — not exactly once. -/
theorem version_extracted_six_times_not_once :
    mainEvents.count Event.versionExtraction = 6 ∧
      ¬ mainEvents.count Event.versionExtraction = 1 := by
  constructor
  · decide
  · decide

/-- C6 (amended): the driver extracts the version once per target iteration
(six times per run, not once); every extraction reads the same descriptor
contents and yields the same value, so all six targets use one and the same
resolved version string; and no other mutable value is shared across the
six iterations — the run over any split of the target list is the
concatenation of the independent per-call runs, each call's events,
resolved version and archive output depend only on that call's own target
(plus the immutable descriptor and version), and the one shared fixed
output directory receives six archives with pairwise-distinct base names,
so no iteration touches another's file. -/
theorem version_extraction_per_iteration (pomContents : List Char) (version : String) :
    mainEvents.count Event.versionExtraction = targets.length ∧
    mainVersions pomContents =
      List.replicate targets.length (getLtexLsVersion pomContents) ∧
    (∀ v, v ∈ mainVersions pomContents → v = getLtexLsVersion pomContents) ∧
    mainEvents = runEvents targets ∧
    mainOutputs version = runOutputs version targets ∧
    mainVersions pomContents = runVersions pomContents targets ∧
    (∀ ts1 ts2 : List (String × String),
      runEvents (ts1 ++ ts2) = runEvents ts1 ++ runEvents ts2) ∧
    (∀ ts1 ts2 : List (String × String),
      runOutputs version (ts1 ++ ts2) = runOutputs version ts1 ++ runOutputs version ts2) ∧
    (∀ ts1 ts2 : List (String × String),
      runVersions pomContents (ts1 ++ ts2) =
        runVersions pomContents ts1 ++ runVersions pomContents ts2) ∧
    (∀ t : String × String, runEvents [t] = createBinaryArchiveEvents t.1 t.2) ∧
    (∀ t : String × String,
      runOutputs version [t] = createBinaryArchiveOutputs version t.1 t.2) ∧
    (∀ t : String × String,
      runVersions pomContents [t] = [getLtexLsVersion pomContents]) ∧
    (∀ a ∈ mainOutputs version, a.dir = targetDirName) ∧
    ((mainOutputs version).map fun a => a.baseName).Nodup := by
  refine ⟨by decide, rfl, ?_, rfl, rfl, rfl, ?_, ?_, ?_, ?_, ?_, ?_, ?_, ?_⟩
  · intro v hv
    simp only [mainVersions, targets, List.map_cons, List.map_nil, List.mem_cons,
      List.not_mem_nil, or_false] at hv
    rcases hv with h | h | h | h | h | h <;> exact h
  · intro ts1 ts2
    simp [runEvents]
  · intro ts1 ts2
    simp [runOutputs]
  · intro ts1 ts2
    simp [runVersions]
  · intro t
    simp [runEvents]
  · intro t
    simp [runOutputs]
  · intro t
    simp [runVersions]
  · intro a ha
    simp only [mainOutputs, targets, createBinaryArchiveOutputs, List.map_cons,
      List.map_nil, List.flatten, List.cons_append, List.nil_append,
      List.mem_cons, List.not_mem_nil, or_false] at ha
    rcases ha with h | h | h | h | h | h <;> (subst h; rfl)
  · simp [mainOutputs, targets, createBinaryArchiveOutputs,
      ltexLsBinaryArchiveBaseName_eq_iff]

/-- C6 witness: the amended statement instantiated at the concrete
descriptor contents and version `1.2.3`. -/
theorem version_extraction_per_iteration_witness :
    mainEvents.count Event.versionExtraction = targets.length ∧
    mainVersions pomExample =
      List.replicate targets.length (getLtexLsVersion pomExample) ∧
    (∀ v, v ∈ mainVersions pomExample → v = getLtexLsVersion pomExample) ∧
    mainEvents = runEvents targets ∧
    mainOutputs "1.2.3" = runOutputs "1.2.3" targets ∧
    mainVersions pomExample = runVersions pomExample targets ∧
    (∀ ts1 ts2 : List (String × String),
      runEvents (ts1 ++ ts2) = runEvents ts1 ++ runEvents ts2) ∧
    (∀ ts1 ts2 : List (String × String),
      runOutputs "1.2.3" (ts1 ++ ts2) = runOutputs "1.2.3" ts1 ++ runOutputs "1.2.3" ts2) ∧
    (∀ ts1 ts2 : List (String × String),
      runVersions pomExample (ts1 ++ ts2) =
        runVersions pomExample ts1 ++ runVersions pomExample ts2) ∧
    (∀ t : String × String, runEvents [t] = createBinaryArchiveEvents t.1 t.2) ∧
    (∀ t : String × String,
      runOutputs "1.2.3" [t] = createBinaryArchiveOutputs "1.2.3" t.1 t.2) ∧
    (∀ t : String × String,
      runVersions pomExample [t] = [getLtexLsVersion pomExample]) ∧
    (∀ a ∈ mainOutputs "1.2.3", a.dir = targetDirName) ∧
    ((mainOutputs "1.2.3").map fun a => a.baseName).Nodup :=
  version_extraction_per_iteration pomExample "1.2.3"

/-- C9: the provisioner continues past the link step iff the runtime image
directory exists, returning the relative runtime directory name; the result
never depends on the tool's exit code — a non-zero exit with the directory
present continues, a missing directory fails the assertion. -/
theorem jlink_exit_status_unchecked (o : JlinkOutcome) :
    (downloadJavaAfterLink o = some relativeJavaDirPathString ↔
      o.outputDirExists = true) ∧
    (downloadJavaAfterLink o = none ↔ o.outputDirExists = false) ∧
    (∀ c : Int, downloadJavaAfterLink ⟨c, o.outputDirExists⟩ = downloadJavaAfterLink o) := by
  obtain ⟨c0, d⟩ := o
  cases d <;> simp [downloadJavaAfterLink]

/-- C9 witness: a `jlink` run that exits with code 1 but leaves the output
directory in place is not stopped. -/
theorem jlink_exit_status_unchecked_witness :
    (downloadJavaAfterLink ⟨1, true⟩ = some relativeJavaDirPathString ↔
      (JlinkOutcome.mk 1 true).outputDirExists = true) ∧
    (downloadJavaAfterLink ⟨1, true⟩ = none ↔
      (JlinkOutcome.mk 1 true).outputDirExists = false) ∧
    (∀ c : Int, downloadJavaAfterLink ⟨c, (JlinkOutcome.mk 1 true).outputDirExists⟩ =
      downloadJavaAfterLink ⟨1, true⟩) :=
  jlink_exit_status_unchecked ⟨1, true⟩

end CreateBinaryArchives

